import Mathlib

/-!
Verification of the moar pager core against its specification.

The Go sources embedded here:
* `src/twin/colors.go` — the color model (`Color` as a packed `uint32`,
  constructors, `to24Bit`, `downsampleTo`, `Distance`, `ansiString`).
* `src/m/pager.go` (appended wrapping part) — `getWrapWidth` / `wrapLine`.
* `src/unnamed/part_000` — an older `wrapLine` whose `getWrapWidth` always
  hard-breaks at the width.

Repository code referenced but absent from the sources (the `twin` cell
helpers `TrimSpaceLeft`/`TrimSpaceRight`, the 256-color palette lookup
`color256ToRGB`, and the tokenizer's `consumeCompositeColor`) is modelled
from the spec; each such definition's doc comment says so.

Machine-integer conventions: Go `uint32`/`uint8` values are embedded as `Nat`
with explicit masking (`%`, `&&&`) exactly where the Go code converts;
Go `int` arguments are embedded as `Int`.

Floating point: `Distance` in Go returns
`sqrt(I) / 764.8333151739665` where `I` is an exact integer computed with
`int64` arithmetic (the compuphase metric used by chroma).  `sqrt` and the
division by a positive constant are strictly monotone, and for the integer
radicands reachable here (`I < 2^20`, far below 2^52) correctly rounded
`float64` square roots of distinct integers are distinct; hence every
comparison of two distances in the Go code coincides with the comparison of
the integer radicands.  We therefore embed a distance as its exact integer
radicand `dist2`.
-/

set_option maxRecDepth 10000

namespace Moar

namespace Twin

/-- Go `type Color uint32`; embedded as `Nat`, always below `2^32` for
values the Go program can construct. -/
abbrev Color := Nat

/-- Go `ColorTypeDefault` (first value of the `ColorType` enum). -/
def ColorTypeDefault : Nat := 0

/-- Go `ColorType8`. -/
def ColorType8 : Nat := 1

/-- Go `ColorType16`. -/
def ColorType16 : Nat := 2

/-- Go `ColorType256`. -/
def ColorType256 : Nat := 3

/-- Go `ColorType24bit`. -/
def ColorType24bit : Nat := 4

/-- Go `newColor`: `Color(value | (uint32(colorType) << 24))`. -/
def newColor (colorType : Nat) (value : Nat) : Color :=
  value ||| (colorType <<< 24)

/-- Go's conversion `uint32(n)` for `n : int` (two's complement wraparound). -/
def uint32OfInt (n : Int) : Nat :=
  (n % 4294967296).toNat

/-- Go `NewColor16(colorNumber0to15 int)`. -/
def NewColor16 (colorNumber0to15 : Int) : Color :=
  newColor ColorType16 (uint32OfInt colorNumber0to15)

/-- Go `NewColor256(colorNumber uint8)`; the `% 256` embeds the `uint8`
parameter width. -/
def NewColor256 (colorNumber : Nat) : Color :=
  newColor ColorType256 (colorNumber % 256)

/-- Go `NewColor24Bit(red, green, blue uint8)`. -/
def NewColor24Bit (red green blue : Nat) : Color :=
  newColor ColorType24bit
    (((red % 256) <<< 16) + ((green % 256) <<< 8) + (blue % 256))

/-- Go `ColorDefault = newColor(ColorTypeDefault, 0)`. -/
def ColorDefault : Color := newColor ColorTypeDefault 0

/-- Go method `Color.ColorType()`: `ColorType(color >> 24)`; the `% 256`
embeds the `uint8` conversion. -/
def ColorTypeOf (color : Color) : Nat :=
  (color >>> 24) % 256

/-- Go method `Color.colorValue()`: `uint32(color & 0xff_ff_ff)`. -/
def colorValue (color : Color) : Nat :=
  color &&& 0xffffff

/-- Modelled from the spec: `color256ToRGB` is not among the given sources.
Spec §4.1 `toRGB24`: "looks up a fixed reference palette (standard 16-color
table, 6×6×6 color cube for indices 16–231, 24-step grayscale ramp for
232–255)".  The standard 256-color palette base table and the usual cube
channel values 0,95,135,175,215,255 and ramp 8,18,…,238 are used. -/
def base16Palette : List (Nat × Nat × Nat) :=
  [(0, 0, 0), (128, 0, 0), (0, 128, 0), (128, 128, 0),
   (0, 0, 128), (128, 0, 128), (0, 128, 128), (192, 192, 192),
   (128, 128, 128), (255, 0, 0), (0, 255, 0), (255, 255, 0),
   (0, 0, 255), (255, 0, 255), (0, 255, 255), (255, 255, 255)]

/-- Modelled from the spec: cube channel value for a digit 0–5. -/
def cubeChannel (c : Nat) : Nat :=
  if c = 0 then 0 else 55 + 40 * c

/-- Modelled from the spec: `color256ToRGB(index uint8)`, the fixed
reference palette lookup described in spec §4.1 (see `base16Palette`). -/
def color256ToRGB (index : Nat) : Nat × Nat × Nat :=
  let n := index % 256
  if n < 16 then
    base16Palette.getD n (0, 0, 0)
  else if n < 232 then
    let k := n - 16
    (cubeChannel (k / 36), cubeChannel ((k / 6) % 6), cubeChannel (k % 6))
  else
    let g := 8 + 10 * (n - 232)
    (g, g, g)

/-- Go method `Color.to24Bit()`; `none` embeds the `panic` on an unhandled
color type.  `uint8(color.colorValue())` is the `% 256`. -/
def to24Bit (color : Color) : Option Color :=
  if ColorTypeOf color = ColorType24bit then
    some color
  else if ColorTypeOf color = ColorType8 ∨ ColorTypeOf color = ColorType16
      ∨ ColorTypeOf color = ColorType256 then
    let rgb := color256ToRGB (colorValue color % 256)
    some (NewColor24Bit rgb.1 rgb.2.1 rgb.2.2)
  else
    none

/-- Absolute difference squared, `(a-b)^2` over `int64` in Go. -/
def sqd (a b : Nat) : Nat :=
  (max a b - min a b) * (max a b - min a b)

/-- The integer radicand of chroma's compuphase distance between two RGB
triples: `((512+rmean)*r*r)>>8 + 4*g*g + ((767-rmean)*b*b)>>8` with
`rmean = (r1+r2)/2` (all terms non-negative, so `>>8` is division by 256).
Per the header comment, comparing two Go `Distance` values is equivalent to
comparing these radicands. -/
def dist2 (a b : Nat × Nat × Nat) : Nat :=
  let rmean := (a.1 + b.1) / 2
  ((512 + rmean) * sqd a.1 b.1) / 256
    + 4 * sqd a.2.1 b.2.1
    + ((767 - rmean) * sqd a.2.2 b.2.2) / 256

/-- The RGB channels Go extracts with `uint8(value>>16&0xff)` etc. -/
def rgbOf (color : Color) : Nat × Nat × Nat :=
  ((colorValue color >>> 16) &&& 0xff,
   (colorValue color >>> 8) &&& 0xff,
   colorValue color &&& 0xff)

/-- Go method `Color.Distance(other)`: panics (`none`) unless the receiver is
24-bit — the argument is NOT checked; otherwise the (radicand of the) scaled
compuphase distance between the two colors' channel bytes. -/
def Distance (color other : Color) : Option Nat :=
  if ColorTypeOf color ≠ ColorType24bit then none
  else some (dist2 (rgbOf color) (rgbOf other))

/-- The best-match loop of Go `downsampleTo`: scan palette indices `0..n`,
keeping `(bestMatch, bestDistance)` and updating on strict improvement.
Go initializes `bestDistance = math.MaxFloat64`, which the first candidate
always beats, so the base case is index 0 with its own distance. -/
def scanBest (target : Nat × Nat × Nat) : Nat → Nat × Nat
  | 0 => (0, dist2 target (color256ToRGB 0))
  | i + 1 =>
    if dist2 target (color256ToRGB (i + 1)) < (scanBest target i).2 then
      (i + 1, dist2 target (color256ToRGB (i + 1)))
    else
      scanBest target i

/-- The `switch terminalColorCount` of Go `downsampleTo` choosing the scan
range; `none` embeds the `panic` of the `default` case. -/
def scanRangeFor (terminalColorCount : Nat) : Option Nat :=
  if terminalColorCount = ColorType8 then some 7
  else if terminalColorCount = ColorType16 then some 15
  else if terminalColorCount = ColorType256 then some 255
  else none

/-- The tail of Go `downsampleTo` after the scan: tag the best matching index
as a 16-color value if it is ≤ 15, else as a 256-color value. -/
def downsampleScan (target : Color) (scanRange : Nat) : Color :=
  if (scanBest (rgbOf target) scanRange).1 ≤ 15 then
    NewColor16 (Int.ofNat (scanBest (rgbOf target) scanRange).1)
  else
    NewColor256 (scanBest (rgbOf target) scanRange).1

/-- Go method `Color.downsampleTo(terminalColorCount)`; `none` embeds the
panics (default color on either side, unhandled type in `to24Bit`, unhandled
scan-range switch case) and the `bind`/`map` sequence the two
panic-or-continue steps of the Go body.  The candidate loop calls
`target.Distance` on a guaranteed 24-bit receiver, so it is embedded
directly via `dist2` on the channel triples. -/
def downsampleTo (color : Color) (terminalColorCount : Nat) : Option Color :=
  if ColorTypeOf color = ColorTypeDefault ∨ terminalColorCount = ColorTypeDefault then
    none
  else if ColorTypeOf color ≤ terminalColorCount then
    some color
  else
    (to24Bit color).bind fun target =>
      (scanRangeFor terminalColorCount).map fun scanRange =>
        downsampleScan target scanRange

/-- Go method `Color.ansiString(foreground, terminalColorCount)`; `none`
embeds the final `panic` (and a failing `downsampleTo`).  The Go body is a
sequence of early returns; the 16-color branch with value > 15 falls through
to the later type checks, which then fail, reaching the panic — the else-if
chain below reproduces exactly that. -/
def ansiString (color : Color) (foreground : Bool) (terminalColorCount : Nat) :
    Option String :=
  let fgBgMarker := if foreground then "3" else "4"
  if ColorTypeOf color = ColorTypeDefault then
    some ("\x1b[" ++ fgBgMarker ++ "9m")
  else
    match downsampleTo color terminalColorCount with
    | none => none
    | some c =>
      if ColorTypeOf c = ColorType16 ∧ colorValue c < 8 then
        some ("\x1b[" ++ fgBgMarker ++ toString (colorValue c) ++ "m")
      else if ColorTypeOf c = ColorType16 ∧ colorValue c ≤ 15 then
        some ("\x1b[" ++ (if foreground then "9" else "10")
          ++ toString (colorValue c - 8) ++ "m")
      else if ColorTypeOf c = ColorType256 ∧ colorValue c ≤ 255 then
        some ("\x1b[" ++ fgBgMarker ++ "8;5;" ++ toString (colorValue c) ++ "m")
      else if ColorTypeOf c = ColorType24bit then
        some ("\x1b[" ++ fgBgMarker ++ "8;2;"
          ++ toString ((colorValue c &&& 0xff0000) >>> 16) ++ ";"
          ++ toString ((colorValue c &&& 0xff00) >>> 8) ++ ";"
          ++ toString (colorValue c &&& 0xff) ++ "m")
      else
        none

end Twin

/-- Modelled from the spec: `twin.Style` is not among the given sources.
Spec §3: a pair of Colors (foreground, background) plus attribute flags;
attributes are embedded as a bitmask, as wrapping never inspects them. -/
structure Style where
  fg : Twin.Color
  bg : Twin.Color
  attrs : Nat
deriving DecidableEq, Repr

/-- Modelled from the spec: the default style (default colors, no attributes). -/
def StyleDefault : Style :=
  { fg := Twin.ColorDefault, bg := Twin.ColorDefault, attrs := 0 }

/-- Modelled from the spec: `twin.Cell` is not among the given sources.
Spec §3: one displayable character (a single Unicode code point, Go `Rune`)
paired with a Style. -/
structure Cell where
  rune : Char
  style : Style
deriving DecidableEq, Repr

/-- Go `unicode.IsSpace`: the Unicode White_Space property (the exact set Go
tests: U+0009–U+000D, U+0020, U+0085, U+00A0, U+1680, U+2000–U+200A, U+2028,
U+2029, U+202F, U+205F, U+3000). -/
def isSpaceRune (c : Char) : Bool :=
  (0x9 ≤ c.toNat && c.toNat ≤ 0xD) || c.toNat = 0x20 || c.toNat = 0x85
    || c.toNat = 0xA0 || c.toNat = 0x1680
    || (0x2000 ≤ c.toNat && c.toNat ≤ 0x200A)
    || c.toNat = 0x2028 || c.toNat = 0x2029 || c.toNat = 0x202F
    || c.toNat = 0x205F || c.toNat = 0x3000

/-- Whether a cell's rune is whitespace. -/
def cellIsSpace (cell : Cell) : Bool :=
  isSpaceRune cell.rune

/-- Modelled from the spec: `twin.TrimSpaceLeft` is not among the given
sources.  Spec §4.3: "trim leading whitespace" — drop leading cells whose
rune is whitespace. -/
def TrimSpaceLeft (cells : List Cell) : List Cell :=
  cells.dropWhile cellIsSpace

/-- Modelled from the spec: `twin.TrimSpaceRight` is not among the given
sources.  Spec §4.3: "trim trailing whitespace" — drop trailing cells whose
rune is whitespace. -/
def TrimSpaceRight (cells : List Cell) : List Cell :=
  (cells.reverse.dropWhile cellIsSpace).reverse

/-- Go `NO_BREAK_SPACE = '\xa0'` (src/m/pager.go). -/
def NO_BREAK_SPACE : Char := '\xa0'

/-- Whether the cell at index `i` is a legal break point per the pager's
`getWrapWidth` loop body: whitespace but not a non-breaking space.
Out-of-range indices yield `false`; the call sites only probe indices below
the line length. -/
def breakableAt (line : List Cell) (i : Nat) : Bool :=
  match line.get? i with
  | none => false
  | some cell => isSpaceRune cell.rune && cell.rune ≠ NO_BREAK_SPACE

namespace Pager

/-- The scan loop of `getWrapWidth` (src/m/pager.go): for
`nextIndex := maxWrapWidth; nextIndex > 0; nextIndex--`, return the first
(largest) index whose cell is breakable; `none` if the loop finishes. -/
def scanBack (line : List Cell) : Nat → Option Nat
  | 0 => none
  | i + 1 => if breakableAt line (i + 1) then some (i + 1) else scanBack line i

/-- Go `getWrapWidth` (src/m/pager.go): the nearest breakable index scanning
down from `maxWrapWidth`, else `maxWrapWidth`.  The Go function panics when
`len(line) <= maxWrapWidth`; its only caller guarantees the precondition,
which the theorems below carry as a hypothesis. -/
def getWrapWidth (line : List Cell) (maxWrapWidth : Nat) : Nat :=
  (scanBack line maxWrapWidth).getD maxWrapWidth

/-- The `for len(line) > width` loop of Go `wrapLine` (src/m/pager.go),
with the already-produced sub-lines accumulated in `wrapped` (Go appends at
the end; so do we), followed by the post-loop trailer.  Go's local variables
`wrapWidth` (`getWrapWidth line width`) and `firstPart` (the slice
`line[:wrapWidth]`, left-trimmed unless this is the first sub-line) are
inlined.  The inner guard `0 < getWrapWidth …` is always true when
`0 < width`; at `width = 0` the Go loop never terminates, which the
unreachable `[]` branch stands in for. -/
def wrapLoop (width : Nat) (line : List Cell) (wrapped : List (List Cell)) :
    List (List Cell) :=
  if h : width < line.length then
    if hw : 0 < getWrapWidth line width then
      wrapLoop width (TrimSpaceLeft (line.drop (getWrapWidth line width)))
        (wrapped ++ [TrimSpaceRight
          (if wrapped.isEmpty then line.take (getWrapWidth line width)
           else TrimSpaceLeft (line.take (getWrapWidth line width)))])
    else
      []
  else
    if (if wrapped.isEmpty then line else TrimSpaceLeft line).isEmpty then
      wrapped
    else
      wrapped ++ [TrimSpaceRight (if wrapped.isEmpty then line else TrimSpaceLeft line)]
termination_by line.length
decreasing_by
  calc (TrimSpaceLeft (line.drop (getWrapWidth line width))).length
      ≤ (line.drop (getWrapWidth line width)).length := (List.dropWhile_suffix _).length_le
    _ = line.length - getWrapWidth line width := List.length_drop ..
    _ < line.length := Nat.sub_lt (Nat.lt_of_le_of_lt (Nat.zero_le _) h) hw

/-- Go `wrapLine` (src/m/pager.go). -/
def wrapLine (width : Nat) (line : List Cell) : List (List Cell) :=
  if line.isEmpty then [[]]
  else wrapLoop width (TrimSpaceRight line) []

end Pager

namespace Part000

/-- Go `getWrapWidth` (src/unnamed/part_000): always the hard break at
`maxWrapWidth` (after the same length-precondition panic guard). -/
def getWrapWidth (_line : List Cell) (maxWrapWidth : Nat) : Nat :=
  maxWrapWidth

/-- The `for len(line) > width` loop of Go `wrapLine` (src/unnamed/part_000);
textually the same loop as the pager's (same inlining of Go's locals), but
calling this file's hard-break `getWrapWidth`. -/
def wrapLoop (width : Nat) (line : List Cell) (wrapped : List (List Cell)) :
    List (List Cell) :=
  if h : width < line.length then
    if hw : 0 < getWrapWidth line width then
      wrapLoop width (TrimSpaceLeft (line.drop (getWrapWidth line width)))
        (wrapped ++ [TrimSpaceRight
          (if wrapped.isEmpty then line.take (getWrapWidth line width)
           else TrimSpaceLeft (line.take (getWrapWidth line width)))])
    else
      []
  else
    if (if wrapped.isEmpty then line else TrimSpaceLeft line).isEmpty then
      wrapped
    else
      wrapped ++ [TrimSpaceRight (if wrapped.isEmpty then line else TrimSpaceLeft line)]
termination_by line.length
decreasing_by
  calc (TrimSpaceLeft (line.drop (getWrapWidth line width))).length
      ≤ (line.drop (getWrapWidth line width)).length := (List.dropWhile_suffix _).length_le
    _ = line.length - getWrapWidth line width := List.length_drop ..
    _ < line.length := Nat.sub_lt (Nat.lt_of_le_of_lt (Nat.zero_le _) h) hw

/-- Go `wrapLine` (src/unnamed/part_000). -/
def wrapLine (width : Nat) (line : List Cell) : List (List Cell) :=
  if line.isEmpty then [[]]
  else wrapLoop width (TrimSpaceRight line) []

end Part000

/-- Modelled from the spec: `consumeCompositeColor` is not among the given
sources (only its tests are, in src/m/ansiTokenizer_test.go).  Spec §4.2: the
parameter at `index` must be 38 (extended foreground) or 48 (extended
background); the next parameter selects an 8-bit palette color (consuming one
further parameter) or a 24-bit color (consuming three further parameters,
red/green/blue); anything else, or missing parameters, is a descriptive
error.  The returned next-index values follow spec §8 and the in-src test
`TestConsumeCompositeColorHappy`: both the 8-bit form `[38,5,n]` and the
24-bit form `[38,2,r,g,b]` consumed from index 0 yield next-index 3. -/
def consumeCompositeColor (params : List Nat) (index : Nat) :
    Except String (Nat × Twin.Color) :=
  match params.get? index with
  | none => .error "incomplete composite color sequence"
  | some p =>
    if p ≠ 38 ∧ p ≠ 48 then
      .error "Unknown start of color sequence, expected 38 (foreground) or 48 (background)"
    else
      match params.get? (index + 1) with
      | none => .error "incomplete composite color sequence"
      | some 5 =>
        match params.get? (index + 2) with
        | none => .error "incomplete composite color sequence"
        | some n => .ok (index + 3, Twin.NewColor256 n)
      | some 2 =>
        match params.get? (index + 2), params.get? (index + 3), params.get? (index + 4) with
        | some r, some g, some b => .ok (index + 3, Twin.NewColor24Bit r g b)
        | _, _, _ => .error "incomplete composite color sequence"
      | some _ =>
        .error "Unknown color type, expected 5 (8 bit color) or 2 (24 bit color)"

/-- A one-character cell with the default style, for concrete examples. -/
def mkCell (c : Char) : Cell :=
  { rune := c, style := StyleDefault }

namespace Twin

theorem lor_shiftLeft_eq_add (t v : Nat) (hv : v < 2 ^ 24) :
    v ||| (t <<< 24) = 2 ^ 24 * t + v := by
  rw [Nat.lor_comm, Nat.shiftLeft_eq, Nat.mul_comm t (2 ^ 24),
    ← Nat.mul_add_lt_is_or hv]

theorem ColorTypeOf_newColor (t v : Nat) (ht : t < 256) (hv : v < 2 ^ 24) :
    ColorTypeOf (newColor t v) = t := by
  unfold ColorTypeOf newColor
  rw [lor_shiftLeft_eq_add t v hv, Nat.shiftRight_eq_div_pow,
    Nat.mul_add_div (by norm_num), Nat.div_eq_of_lt hv, Nat.add_zero,
    Nat.mod_eq_of_lt ht]

theorem colorValue_newColor (t v : Nat) (hv : v < 2 ^ 24) :
    colorValue (newColor t v) = v := by
  unfold colorValue newColor
  rw [lor_shiftLeft_eq_add t v hv]
  have h : (0xffffff : Nat) = 2 ^ 24 - 1 := by norm_num
  rw [h, Nat.and_pow_two_sub_one_eq_mod, Nat.mul_add_mod, Nat.mod_eq_of_lt hv]

theorem value24_lt (r g b : Nat) :
    ((r % 256) <<< 16) + ((g % 256) <<< 8) + (b % 256) < 2 ^ 24 := by
  have hr : r % 256 < 256 := Nat.mod_lt _ (by norm_num)
  have hg : g % 256 < 256 := Nat.mod_lt _ (by norm_num)
  have hb : b % 256 < 256 := Nat.mod_lt _ (by norm_num)
  rw [Nat.shiftLeft_eq, Nat.shiftLeft_eq]
  norm_num
  omega

theorem ColorTypeOf_NewColor24Bit (r g b : Nat) :
    ColorTypeOf (NewColor24Bit r g b) = ColorType24bit :=
  ColorTypeOf_newColor _ _ (by norm_num [ColorType24bit]) (value24_lt r g b)

theorem ColorTypeOf_NewColor256 (n : Nat) :
    ColorTypeOf (NewColor256 n) = ColorType256 :=
  ColorTypeOf_newColor _ _ (by norm_num [ColorType256])
    (lt_of_lt_of_le (Nat.mod_lt _ (by norm_num)) (by norm_num))

theorem ColorTypeOf_NewColor16_ofNat (n : Nat) (hn : n ≤ 15) :
    ColorTypeOf (NewColor16 (Int.ofNat n)) = ColorType16 := by
  unfold NewColor16 uint32OfInt
  have hc : (Int.ofNat n) = (n : Int) := rfl
  have h : (((n : Int) % 4294967296 : Int)).toNat = n := by omega
  rw [hc]
  rw [h]
  exact ColorTypeOf_newColor _ _ (by norm_num [ColorType16]) (by omega)

theorem colorValue_NewColor16_ofNat (n : Nat) (hn : n ≤ 15) :
    colorValue (NewColor16 (Int.ofNat n)) = n := by
  unfold NewColor16 uint32OfInt
  have hc : (Int.ofNat n) = (n : Int) := rfl
  have h : (((n : Int) % 4294967296 : Int)).toNat = n := by omega
  rw [hc]
  rw [h]
  exact colorValue_newColor _ _ (by omega)

end Twin

end Moar

namespace Moar

open Twin

/-- C5, counterexample: the Go 16-color constructor takes an `int`; at
argument 16 the constructed color's value is 16, outside [0,15], so the
claim's first conjunct ("for every integer argument n … value in [0,15]")
is false as stated. -/
theorem color_ctor_invariant_cex :
    ¬ (ColorTypeOf (NewColor16 16) = ColorType16
        ∧ colorValue (NewColor16 16) ≤ 15) := by
  decide

/-- C5, amended: restricted to arguments inside the documented ranges, the
constructors yield tag-valid colors: for n ∈ [0,15] the 16-color constructor
gives an Indexed-16 tag and value n ≤ 15; for n ∈ [0,255] the 256-color
constructor gives an Indexed-256 tag and value n ≤ 255; for channels in
[0,255] the RGB constructor gives an RGB-24 tag with each extracted channel
equal to its argument (hence in [0,255]). -/
theorem color_ctor_invariant :
    (∀ n : Nat, n ≤ 15 →
      ColorTypeOf (NewColor16 (Int.ofNat n)) = ColorType16
        ∧ colorValue (NewColor16 (Int.ofNat n)) = n)
    ∧ (∀ n : Nat, n ≤ 255 →
      ColorTypeOf (NewColor256 n) = ColorType256
        ∧ colorValue (NewColor256 n) = n)
    ∧ (∀ r g b : Nat, r ≤ 255 → g ≤ 255 → b ≤ 255 →
      ColorTypeOf (NewColor24Bit r g b) = ColorType24bit
        ∧ rgbOf (NewColor24Bit r g b) = (r, g, b)) := by
  refine ⟨fun n hn => ⟨ColorTypeOf_NewColor16_ofNat n hn,
      colorValue_NewColor16_ofNat n hn⟩,
    fun n hn => ⟨ColorTypeOf_NewColor256 n, ?_⟩,
    fun r g b hr hg hb => ⟨ColorTypeOf_NewColor24Bit r g b, ?_⟩⟩
  · unfold NewColor256
    rw [colorValue_newColor _ _ (by omega)]
    exact Nat.mod_eq_of_lt (by omega)
  · unfold rgbOf NewColor24Bit
    rw [colorValue_newColor _ _ (value24_lt r g b)]
    rw [Nat.mod_eq_of_lt (by omega : r < 256), Nat.mod_eq_of_lt (by omega : g < 256),
      Nat.mod_eq_of_lt (by omega : b < 256)]
    have h255 : (0xff : Nat) = 2 ^ 8 - 1 := by norm_num
    rw [Nat.shiftLeft_eq, Nat.shiftLeft_eq, Nat.shiftRight_eq_div_pow,
      Nat.shiftRight_eq_div_pow, h255, Nat.and_pow_two_sub_one_eq_mod,
      Nat.and_pow_two_sub_one_eq_mod, Nat.and_pow_two_sub_one_eq_mod]
    norm_num
    constructor
    · omega
    constructor
    · omega
    · omega

/-- C5, witness for the amended theorem at concrete inputs. -/
theorem color_ctor_invariant_witness :
    (ColorTypeOf (NewColor16 (Int.ofNat 7)) = ColorType16
      ∧ colorValue (NewColor16 (Int.ofNat 7)) = 7)
    ∧ (ColorTypeOf (NewColor256 200) = ColorType256
      ∧ colorValue (NewColor256 200) = 200)
    ∧ (ColorTypeOf (NewColor24Bit 1 2 3) = ColorType24bit
      ∧ rgbOf (NewColor24Bit 1 2 3) = (1, 2, 3)) :=
  ⟨color_ctor_invariant.1 7 (by decide),
   color_ctor_invariant.2.1 200 (by decide),
   color_ctor_invariant.2.2 1 2 3 (by decide) (by decide) (by decide)⟩

/-- C6, counterexample: `Distance` only checks its receiver; with a 24-bit
first argument and the Default color as second argument it returns a numeric
result instead of failing. -/
theorem distance_default_cex :
    Distance (NewColor24Bit 0 0 0) ColorDefault ≠ none := by
  decide

/-- C6, amended: `Distance` fails exactly when its FIRST argument is not
RGB-24 — in particular whenever the first argument is Default; a Default
second argument is not rejected (its zero value bits are read as black). -/
theorem distance_default :
    (∀ b : Color, Distance ColorDefault b = none)
    ∧ (∀ r g bl : Nat, Distance (NewColor24Bit r g bl) ColorDefault ≠ none) := by
  constructor
  · intro b
    unfold Distance
    rw [if_pos]
    decide
  · intro r g bl
    unfold Distance
    rw [if_neg]
    · exact Option.some_ne_none _
    · rw [Ne, not_not]
      exact ColorTypeOf_NewColor24Bit r g bl

/-- C8: for every terminal capability level, rendering the Default color
emits the reset-to-default sequence of the requested side ("\x1b[39m" for
foreground, "\x1b[49m" for background), the same string at every level, and
never fails — the Default branch returns before `downsampleTo` is reached
(the statement covers even level 0, at which `downsampleTo` would fail). -/
theorem default_ansi_reset :
    ∀ (foreground : Bool) (terminalColorCount : Nat),
      ansiString ColorDefault foreground terminalColorCount
        = some (if foreground then "\x1b[39m" else "\x1b[49m") := by
  intro foreground terminalColorCount
  cases foreground <;> rfl

/-- C9: consuming a composite color from [38, 2, 10, 20, 30] at index 0
succeeds with next-index 3 and the color RGB-24(10,20,30), as the in-src
test `TestConsumeCompositeColorHappy` asserts (the model of the absent
`consumeCompositeColor` follows spec §8 and that test). -/
theorem consume_composite_24bit :
    consumeCompositeColor [38, 2, 10, 20, 30] 0
      = .ok (3, NewColor24Bit 10 20 30) := by
  rfl

namespace Twin

theorem scanBest_fst_le (t : Nat × Nat × Nat) (n : Nat) :
    (scanBest t n).1 ≤ n := by
  induction n with
  | zero => simp [scanBest]
  | succ i ih =>
    simp only [scanBest]
    split
    · exact Nat.le_refl _
    · exact Nat.le_succ_of_le ih

theorem scanBest_snd (t : Nat × Nat × Nat) (n : Nat) :
    (scanBest t n).2 = dist2 t (color256ToRGB (scanBest t n).1) := by
  induction n with
  | zero => simp [scanBest]
  | succ i ih =>
    simp only [scanBest]
    split
    · rfl
    · exact ih

theorem scanBest_min (t : Nat × Nat × Nat) (n : Nat) :
    ∀ j ≤ n, (scanBest t n).2 ≤ dist2 t (color256ToRGB j) := by
  induction n with
  | zero =>
    intro j hj
    interval_cases j
    simp [scanBest]
  | succ i ih =>
    intro j hj
    simp only [scanBest]
    by_cases hc : dist2 t (color256ToRGB (i + 1)) < (scanBest t i).2
    · rw [if_pos hc]
      rcases Nat.lt_succ_iff_lt_or_eq.mp (Nat.lt_succ_of_le hj) with h | h
      · exact Nat.le_of_lt (Nat.lt_of_lt_of_le hc (ih j (Nat.lt_succ_iff.mp h)))
      · subst h
        exact Nat.le_refl _
    · rw [if_neg hc]
      rcases Nat.lt_succ_iff_lt_or_eq.mp (Nat.lt_succ_of_le hj) with h | h
      · exact ih j (Nat.lt_succ_iff.mp h)
      · subst h
        exact Nat.le_of_not_lt hc

theorem scanBest_first (t : Nat × Nat × Nat) (n : Nat) :
    ∀ j < (scanBest t n).1, (scanBest t n).2 < dist2 t (color256ToRGB j) := by
  induction n with
  | zero =>
    intro j hj
    simp [scanBest] at hj
  | succ i ih =>
    intro j hj
    simp only [scanBest] at hj ⊢
    by_cases hc : dist2 t (color256ToRGB (i + 1)) < (scanBest t i).2
    · rw [if_pos hc] at hj ⊢
      exact Nat.lt_of_lt_of_le hc (scanBest_min t i j (Nat.lt_succ_iff.mp hj))
    · rw [if_neg hc] at hj ⊢
      exact ih j hj

/-- The first-tie-kept argmin over `0..15` agrees with the argmin over
`0..255` whenever the latter lands at an index ≤ 15. -/
theorem scanBest_restrict (t : Nat × Nat × Nat)
    (h : (scanBest t 255).1 ≤ 15) : (scanBest t 15).1 = (scanBest t 255).1 := by
  rcases Nat.lt_trichotomy (scanBest t 15).1 (scanBest t 255).1 with hlt | heq | hgt
  · exfalso
    have h1 : (scanBest t 255).2 < dist2 t (color256ToRGB (scanBest t 15).1) :=
      scanBest_first t 255 _ hlt
    have h2 : (scanBest t 15).2 ≤ dist2 t (color256ToRGB (scanBest t 255).1) :=
      scanBest_min t 15 _ h
    rw [scanBest_snd t 15] at h2
    rw [scanBest_snd t 255] at h1
    omega
  · exact heq
  · exfalso
    have h1 : (scanBest t 15).2 < dist2 t (color256ToRGB (scanBest t 255).1) :=
      scanBest_first t 15 _ hgt
    have hle15 : (scanBest t 15).1 ≤ 255 :=
      Nat.le_trans (scanBest_fst_le t 15) (by norm_num)
    have h2 : (scanBest t 255).2 ≤ dist2 t (color256ToRGB (scanBest t 15).1) :=
      scanBest_min t 255 _ hle15
    rw [scanBest_snd t 15] at h1
    rw [scanBest_snd t 255] at h2
    omega

theorem to24Bit_isSome (color : Color)
    (h1 : ColorTypeOf color ≠ ColorTypeDefault)
    (h2 : ColorTypeOf color ≤ ColorType24bit) :
    ∃ t, to24Bit color = some t := by
  unfold to24Bit
  by_cases h4 : ColorTypeOf color = ColorType24bit
  · rw [if_pos h4]
    exact ⟨color, rfl⟩
  · rw [if_neg h4, if_pos]
    · exact ⟨_, rfl⟩
    · simp only [ColorTypeDefault] at h1
      simp only [ColorType24bit] at h2 h4
      simp only [ColorType8, ColorType16, ColorType256]
      omega

end Twin

/-- C2, counterexample: downsampling pure black (RGB-24) to the 256-color
level returns the palette's index-0 match tagged as a 16-color value, not as
a 256-color value, so "a 256-color tag when the target is 256-color" is
false as stated. -/
theorem downsample_target_tag_cex :
    (downsampleTo (NewColor24Bit 0 0 0) ColorType256).map ColorTypeOf
      ≠ some ColorType256 := by
  decide

/-- C2, amended: for a valid non-Default color whose precision exceeds the
target, downsampling succeeds and the result's tag never exceeds the target
level: with a 16-color target the tag is exactly Indexed-16; with a
256-color target the tag is Indexed-16 exactly when the best palette match
(over the 24-bit promotion `t24` of the input) has index ≤ 15, and
Indexed-256 exactly when that index exceeds 15. -/
theorem downsample_target_tag (color : Twin.Color) (target : Nat)
    (hd : ColorTypeOf color ≠ ColorTypeDefault)
    (hv : ColorTypeOf color ≤ ColorType24bit)
    (ht : target = ColorType16 ∨ target = ColorType256)
    (hgt : target < ColorTypeOf color) :
    ∃ t24 c, to24Bit color = some t24
      ∧ downsampleTo color target = some c
      ∧ ColorTypeOf c ≤ target
      ∧ (target = ColorType16 → ColorTypeOf c = ColorType16)
      ∧ (target = ColorType256 →
          ((scanBest (rgbOf t24) 255).1 ≤ 15 → ColorTypeOf c = ColorType16)
          ∧ (15 < (scanBest (rgbOf t24) 255).1 → ColorTypeOf c = ColorType256)) := by
  obtain ⟨t24, h24⟩ := to24Bit_isSome color hd hv
  have htd : target ≠ ColorTypeDefault := by
    rcases ht with h | h <;> rw [h] <;> decide
  refine ⟨t24, ?_⟩
  unfold downsampleTo
  rw [if_neg (by tauto), if_neg (Nat.not_le_of_lt hgt), h24, Option.some_bind]
  rcases ht with h | h <;> subst h
  · rw [show scanRangeFor ColorType16 = some 15 from rfl, Option.map_some']
    unfold downsampleScan
    have hle : (scanBest (rgbOf t24) 15).1 ≤ 15 := scanBest_fst_le _ _
    rw [if_pos hle]
    exact ⟨_, rfl, rfl, Nat.le_of_eq (ColorTypeOf_NewColor16_ofNat _ hle),
      fun _ => ColorTypeOf_NewColor16_ofNat _ hle,
      fun hcontra => absurd hcontra (by decide)⟩
  · rw [show scanRangeFor ColorType256 = some 255 from rfl, Option.map_some']
    unfold downsampleScan
    by_cases hle : (scanBest (rgbOf t24) 255).1 ≤ 15
    · rw [if_pos hle]
      refine ⟨_, rfl, rfl, ?_, fun hcontra => absurd hcontra (by decide),
        fun _ => ⟨fun _ => ColorTypeOf_NewColor16_ofNat _ hle,
          fun hgt15 => absurd hle (Nat.not_le_of_lt hgt15)⟩⟩
      rw [ColorTypeOf_NewColor16_ofNat _ hle]
      decide
    · rw [if_neg hle]
      exact ⟨_, rfl, rfl, Nat.le_of_eq (ColorTypeOf_NewColor256 _),
        fun hcontra => absurd hcontra (by decide),
        fun _ => ⟨fun h15 => absurd h15 hle,
          fun _ => ColorTypeOf_NewColor256 _⟩⟩

/-- C2, witness for the amended theorem: black downsampled to the 256-color
level (for which the best-match index is 0 ≤ 15, so the result is tagged
Indexed-16). -/
theorem downsample_target_tag_witness :
    ∃ t24 c, to24Bit (NewColor24Bit 0 0 0) = some t24
      ∧ downsampleTo (NewColor24Bit 0 0 0) ColorType256 = some c
      ∧ ColorTypeOf c ≤ ColorType256
      ∧ (ColorType256 = ColorType16 → ColorTypeOf c = ColorType16)
      ∧ (ColorType256 = ColorType256 →
          ((scanBest (rgbOf t24) 255).1 ≤ 15 → ColorTypeOf c = ColorType16)
          ∧ (15 < (scanBest (rgbOf t24) 255).1 → ColorTypeOf c = ColorType256)) :=
  downsample_target_tag (NewColor24Bit 0 0 0) ColorType256 (by decide)
    (by decide) (Or.inr rfl) (by decide)

/-- C3, counterexample: for RGB-24(0,34,68), downsampling to 256-color gives
grayscale index 235, whose 16-color downsample is index 0 (black), while the
direct 16-color downsample of the original is index 4 (navy): the two paths
differ. -/
theorem downsample_monotonic_cex :
    (downsampleTo (NewColor24Bit 0 34 68) ColorType256).bind
        (fun mid => downsampleTo mid ColorType16)
      ≠ downsampleTo (NewColor24Bit 0 34 68) ColorType16 := by
  decide

/-- C3, amended: the two degradation paths agree whenever the intermediate
256-color downsample already lands in the 16-color range (carries an
Indexed-16 tag); in that case the intermediate color is returned unchanged
by the second step and equals the direct 16-color downsample. -/
theorem downsample_monotonic (color : Twin.Color)
    (h24 : ColorTypeOf color = ColorType24bit)
    (mid : Twin.Color)
    (hmid : downsampleTo color ColorType256 = some mid)
    (htag : ColorTypeOf mid = ColorType16) :
    downsampleTo mid ColorType16 = downsampleTo color ColorType16 := by
  have hto : to24Bit color = some color := by
    unfold to24Bit
    rw [if_pos h24]
  have hbm : ∃ bm ≤ 15, (scanBest (rgbOf color) 255).1 = bm
      ∧ mid = NewColor16 (Int.ofNat bm) := by
    unfold downsampleTo at hmid
    rw [if_neg (by rw [h24]; decide), if_neg (by rw [h24]; decide), hto,
      Option.some_bind, show scanRangeFor ColorType256 = some 255 from rfl,
      Option.map_some'] at hmid
    unfold downsampleScan at hmid
    by_cases hle : (scanBest (rgbOf color) 255).1 ≤ 15
    · rw [if_pos hle] at hmid
      exact ⟨_, hle, rfl, (Option.some_injective _ hmid).symm⟩
    · rw [if_neg hle] at hmid
      exfalso
      rw [← Option.some_injective _ hmid, ColorTypeOf_NewColor256] at htag
      exact absurd htag (by decide)
  obtain ⟨bm, hble, hbm255, hmideq⟩ := hbm
  have hlhs : downsampleTo mid ColorType16 = some mid := by
    unfold downsampleTo
    rw [if_neg (by rw [htag]; decide), if_pos (by rw [htag])]
  rw [hlhs]
  unfold downsampleTo
  rw [if_neg (by rw [h24]; decide), if_neg (by rw [h24]; decide), hto,
    Option.some_bind, show scanRangeFor ColorType16 = some 15 from rfl,
    Option.map_some']
  unfold downsampleScan
  have h15 : (scanBest (rgbOf color) 15).1 = bm := by
    rw [← hbm255]
    exact scanBest_restrict _ (by rw [hbm255]; exact hble)
  rw [if_pos (by rw [h15]; exact hble), h15, hmideq]

/-- C3, witness for the amended theorem: black's 256-color downsample is the
16-tagged index 0, and both degradation paths agree on it. -/
theorem downsample_monotonic_witness :
    downsampleTo (NewColor16 0) ColorType16
      = downsampleTo (NewColor24Bit 0 0 0) ColorType16 :=
  downsample_monotonic (NewColor24Bit 0 0 0) (by decide) (NewColor16 0)
    (by decide) (by decide)

theorem TrimSpaceLeft_length_le (l : List Cell) :
    (TrimSpaceLeft l).length ≤ l.length :=
  (List.dropWhile_suffix _).length_le

theorem TrimSpaceRight_length_le (l : List Cell) :
    (TrimSpaceRight l).length ≤ l.length := by
  unfold TrimSpaceRight
  rw [List.length_reverse]
  calc (l.reverse.dropWhile cellIsSpace).length
      ≤ l.reverse.length := (List.dropWhile_suffix _).length_le
    _ = l.length := List.length_reverse l

theorem dropWhile_space_eq_self (l : List Cell)
    (h : ∀ c ∈ l, cellIsSpace c = false) :
    l.dropWhile cellIsSpace = l := by
  cases l with
  | nil => rfl
  | cons a as =>
    rw [List.dropWhile_cons, if_neg]
    simp [h a (List.mem_cons_self a as)]

theorem TrimSpaceLeft_nospace (l : List Cell)
    (h : ∀ c ∈ l, cellIsSpace c = false) :
    TrimSpaceLeft l = l :=
  dropWhile_space_eq_self l h

theorem TrimSpaceRight_nospace (l : List Cell)
    (h : ∀ c ∈ l, cellIsSpace c = false) :
    TrimSpaceRight l = l := by
  unfold TrimSpaceRight
  rw [dropWhile_space_eq_self l.reverse (fun c hc => h c (List.mem_reverse.mp hc)),
    List.reverse_reverse]

theorem breakableAt_false_of_nospace (line : List Cell)
    (h : ∀ c ∈ line, cellIsSpace c = false) (i : Nat) :
    breakableAt line i = false := by
  unfold breakableAt
  cases hg : line.get? i with
  | none => rfl
  | some cell =>
    have hs := h cell (List.get?_mem hg)
    unfold cellIsSpace at hs
    simp [hs]

namespace Pager

theorem scanBack_some (line : List Cell) (n i : Nat)
    (h : scanBack line n = some i) :
    1 ≤ i ∧ i ≤ n ∧ breakableAt line i = true
      ∧ ∀ j, i < j → j ≤ n → breakableAt line j = false := by
  induction n with
  | zero => cases h
  | succ m ih =>
    unfold scanBack at h
    by_cases hb : breakableAt line (m + 1) = true
    · rw [if_pos hb] at h
      obtain rfl : m + 1 = i := Option.some_injective _ h
      exact ⟨Nat.succ_le_succ (Nat.zero_le m), Nat.le_refl _, hb,
        fun j h1 h2 => absurd (Nat.lt_of_lt_of_le h1 h2) (Nat.lt_irrefl _)⟩
    · rw [if_neg hb] at h
      obtain ⟨g1, g2, g3, g4⟩ := ih h
      refine ⟨g1, Nat.le_succ_of_le g2, g3, fun j h1 h2 => ?_⟩
      rcases Nat.lt_succ_iff_lt_or_eq.mp (Nat.lt_succ_of_le h2) with hj | hj
      · exact g4 j h1 (Nat.lt_succ_iff.mp hj)
      · subst hj
        exact Bool.not_eq_true _ ▸ (eq_false_of_ne_true hb)

theorem scanBack_none (line : List Cell) (n : Nat)
    (h : scanBack line n = none) :
    ∀ j, 1 ≤ j → j ≤ n → breakableAt line j = false := by
  induction n with
  | zero =>
    intro j h1 h2
    omega
  | succ m ih =>
    unfold scanBack at h
    by_cases hb : breakableAt line (m + 1) = true
    · rw [if_pos hb] at h
      cases h
    · rw [if_neg hb] at h
      intro j h1 h2
      rcases Nat.lt_succ_iff_lt_or_eq.mp (Nat.lt_succ_of_le h2) with hj | hj
      · exact ih h j h1 (Nat.lt_succ_iff.mp hj)
      · subst hj
        exact eq_false_of_ne_true hb

theorem getWrapWidth_le (line : List Cell) (width : Nat) :
    getWrapWidth line width ≤ width := by
  unfold getWrapWidth
  cases hsc : scanBack line width with
  | none => exact Nat.le_refl _
  | some i => exact (scanBack_some line width i hsc).2.1

theorem getWrapWidth_pos (line : List Cell) (width : Nat) (hw : 0 < width) :
    0 < getWrapWidth line width := by
  unfold getWrapWidth
  cases hsc : scanBack line width with
  | none => exact hw
  | some i => exact (scanBack_some line width i hsc).1

theorem getWrapWidth_nospace (line : List Cell) (width : Nat)
    (h : ∀ c ∈ line, cellIsSpace c = false) :
    getWrapWidth line width = width := by
  unfold getWrapWidth
  cases hsc : scanBack line width with
  | none => rfl
  | some i =>
    have hb := (scanBack_some line width i hsc).2.2.1
    rw [breakableAt_false_of_nospace line h i] at hb
    cases hb

end Pager

end Moar

namespace Moar

/-- C1: for a line strictly longer than a positive target width, the pager's
`getWrapWidth` returns the largest index in `[1, width]` holding a breakable
whitespace cell (whitespace that is not a non-breaking space) — the nearest
such cell scanning backward from the width-th cell — and returns exactly
`width` (hard break) when no index in that scanned range is breakable. -/
theorem wrap_breakpoint_choice (line : List Cell) (width : Nat)
    (hw : 0 < width) (hl : width < line.length) :
    (∃ i, Pager.getWrapWidth line width = i ∧ 1 ≤ i ∧ i ≤ width
       ∧ breakableAt line i = true
       ∧ ∀ j, i < j → j ≤ width → breakableAt line j = false)
    ∨ (Pager.getWrapWidth line width = width
       ∧ ∀ j, 1 ≤ j → j ≤ width → breakableAt line j = false) := by
  unfold Pager.getWrapWidth
  cases hsc : Pager.scanBack line width with
  | none =>
    exact Or.inr ⟨rfl, Pager.scanBack_none line width hsc⟩
  | some i =>
    obtain ⟨h1, h2, h3, h4⟩ := Pager.scanBack_some line width i hsc
    exact Or.inl ⟨i, rfl, h1, h2, h3, h4⟩

/-- C1, witness: on the line "ab cd" with width 4 the hypotheses hold and
the break point is the space at index 2. -/
theorem wrap_breakpoint_choice_witness :
    (0 < 4
      ∧ 4 < ([mkCell 'a', mkCell 'b', mkCell ' ', mkCell 'c', mkCell 'd'] : List Cell).length)
    ∧ ((∃ i, Pager.getWrapWidth [mkCell 'a', mkCell 'b', mkCell ' ', mkCell 'c', mkCell 'd'] 4 = i
        ∧ 1 ≤ i ∧ i ≤ 4
        ∧ breakableAt [mkCell 'a', mkCell 'b', mkCell ' ', mkCell 'c', mkCell 'd'] i = true
        ∧ ∀ j, i < j → j ≤ 4 →
            breakableAt [mkCell 'a', mkCell 'b', mkCell ' ', mkCell 'c', mkCell 'd'] j = false)
      ∨ (Pager.getWrapWidth [mkCell 'a', mkCell 'b', mkCell ' ', mkCell 'c', mkCell 'd'] 4 = 4
        ∧ ∀ j, 1 ≤ j → j ≤ 4 →
            breakableAt [mkCell 'a', mkCell 'b', mkCell ' ', mkCell 'c', mkCell 'd'] j = false)) :=
  ⟨⟨by decide, by decide⟩,
    wrap_breakpoint_choice [mkCell 'a', mkCell 'b', mkCell ' ', mkCell 'c', mkCell 'd'] 4
      (by decide) (by decide)⟩

theorem pager_wrapLoop_step_lt (width : Nat) (line : List Cell)
    (wrapped : List (List Cell)) (h1 : width < line.length)
    (h2 : 0 < Pager.getWrapWidth line width) :
    Pager.wrapLoop width line wrapped
      = Pager.wrapLoop width (TrimSpaceLeft (line.drop (Pager.getWrapWidth line width)))
        (wrapped ++ [TrimSpaceRight
          (if wrapped.isEmpty then line.take (Pager.getWrapWidth line width)
           else TrimSpaceLeft (line.take (Pager.getWrapWidth line width)))]) := by
  conv_lhs => rw [Pager.wrapLoop]
  rw [dif_pos h1, dif_pos h2]

theorem pager_wrapLoop_step_ge (width : Nat) (line : List Cell)
    (wrapped : List (List Cell)) (h1 : ¬ width < line.length) :
    Pager.wrapLoop width line wrapped
      = if (if wrapped.isEmpty then line else TrimSpaceLeft line).isEmpty then wrapped
        else wrapped ++ [TrimSpaceRight (if wrapped.isEmpty then line else TrimSpaceLeft line)] := by
  rw [Pager.wrapLoop, dif_neg h1]

theorem part000_wrapLoop_step_lt (width : Nat) (line : List Cell)
    (wrapped : List (List Cell)) (h1 : width < line.length)
    (h2 : 0 < Part000.getWrapWidth line width) :
    Part000.wrapLoop width line wrapped
      = Part000.wrapLoop width (TrimSpaceLeft (line.drop (Part000.getWrapWidth line width)))
        (wrapped ++ [TrimSpaceRight
          (if wrapped.isEmpty then line.take (Part000.getWrapWidth line width)
           else TrimSpaceLeft (line.take (Part000.getWrapWidth line width)))]) := by
  conv_lhs => rw [Part000.wrapLoop]
  rw [dif_pos h1, dif_pos h2]

theorem part000_wrapLoop_step_ge (width : Nat) (line : List Cell)
    (wrapped : List (List Cell)) (h1 : ¬ width < line.length) :
    Part000.wrapLoop width line wrapped
      = if (if wrapped.isEmpty then line else TrimSpaceLeft line).isEmpty then wrapped
        else wrapped ++ [TrimSpaceRight (if wrapped.isEmpty then line else TrimSpaceLeft line)] := by
  rw [Part000.wrapLoop, dif_neg h1]

/-- C4, counterexample: a non-empty line consisting only of whitespace
yields ZERO sub-lines (the empty result set), not a single empty sub-line,
in both wrapLine implementations — the single-empty-sub-line behavior only
occurs for the genuinely empty input. -/
theorem wrap_empty_cex :
    Pager.wrapLine 2 [mkCell ' '] = []
      ∧ Pager.wrapLine 2 [mkCell ' '] ≠ [[]]
      ∧ Part000.wrapLine 2 [mkCell ' '] = [] := by
  have hp : Pager.wrapLine 2 [mkCell ' '] = [] := by
    unfold Pager.wrapLine
    rw [if_neg (by decide), show TrimSpaceRight [mkCell ' '] = [] from by decide,
      pager_wrapLoop_step_ge 2 [] [] (by decide)]
    decide
  have hq : Part000.wrapLine 2 [mkCell ' '] = [] := by
    unfold Part000.wrapLine
    rw [if_neg (by decide), show TrimSpaceRight [mkCell ' '] = [] from by decide,
      part000_wrapLoop_step_ge 2 [] [] (by decide)]
    decide
  exact ⟨hp, by rw [hp]; decide, hq⟩

/-- C4, amended: the empty input line yields exactly one empty sub-line; a
non-empty input whose right-trim is empty (a whitespace-only line) yields an
empty result set (zero sub-lines). -/
theorem wrap_empty_amended :
    (∀ width, Pager.wrapLine width ([] : List Cell) = [[]])
    ∧ (∀ width (line : List Cell), line ≠ [] → TrimSpaceRight line = [] →
        Pager.wrapLine width line = []) := by
  constructor
  · intro width
    rfl
  · intro width line hne htrim
    unfold Pager.wrapLine
    rw [if_neg (by simpa using hne), htrim,
      pager_wrapLoop_step_ge width [] [] (by simp)]
    decide

/-- C4, witness for the amended theorem. -/
theorem wrap_empty_amended_witness :
    Pager.wrapLine 3 ([] : List Cell) = [[]]
      ∧ Pager.wrapLine 3 [mkCell ' ', mkCell ' '] = [] :=
  ⟨wrap_empty_amended.1 3,
    wrap_empty_amended.2 3 [mkCell ' ', mkCell ' '] (by decide) (by decide)⟩

theorem mem_trailer_cases {sub : List Cell} {wrapped : List (List Cell)}
    {line : List Cell}
    (hsub : sub ∈ (if (if wrapped.isEmpty then line else TrimSpaceLeft line).isEmpty
        then wrapped
        else wrapped ++ [TrimSpaceRight (if wrapped.isEmpty then line else TrimSpaceLeft line)])) :
    sub ∈ wrapped
      ∨ sub = TrimSpaceRight (if wrapped.isEmpty then line else TrimSpaceLeft line) := by
  by_cases he : (if wrapped.isEmpty then line else TrimSpaceLeft line).isEmpty
  · rw [if_pos he] at hsub
    exact Or.inl hsub
  · rw [if_neg he] at hsub
    rcases List.mem_append.mp hsub with h | h
    · exact Or.inl h
    · exact Or.inr (List.mem_singleton.mp h)

theorem wrapLoop_bounded (width : Nat) (hw : 0 < width) :
    ∀ (n : Nat) (line : List Cell) (wrapped : List (List Cell)),
      line.length ≤ n →
      (∀ s ∈ wrapped, s.length ≤ width) →
      ∀ sub ∈ Pager.wrapLoop width line wrapped, sub.length ≤ width := by
  intro n
  induction n with
  | zero =>
    intro line wrapped hlen hacc sub hsub
    rw [pager_wrapLoop_step_ge width line wrapped (by omega)] at hsub
    rcases mem_trailer_cases hsub with h | h
    · exact hacc sub h
    · subst h
      have h1 := TrimSpaceRight_length_le (if wrapped.isEmpty then line else TrimSpaceLeft line)
      have h2 : (if wrapped.isEmpty then line else TrimSpaceLeft line).length ≤ line.length := by
        split
        · exact Nat.le_refl _
        · exact TrimSpaceLeft_length_le line
      omega
  | succ n ih =>
    intro line wrapped hlen hacc sub hsub
    by_cases hlt : width < line.length
    · rw [pager_wrapLoop_step_lt width line wrapped hlt
        (Pager.getWrapWidth_pos line width hw)] at hsub
      refine ih _ _ ?_ ?_ sub hsub
      · have h1 := TrimSpaceLeft_length_le (line.drop (Pager.getWrapWidth line width))
        rw [List.length_drop] at h1
        have h2 := Pager.getWrapWidth_pos line width hw
        omega
      · intro s hs
        rcases List.mem_append.mp hs with h | h
        · exact hacc s h
        · rw [List.mem_singleton] at h
          subst h
          have h1 := TrimSpaceRight_length_le
            (if wrapped.isEmpty then line.take (Pager.getWrapWidth line width)
             else TrimSpaceLeft (line.take (Pager.getWrapWidth line width)))
          have h2 : (if wrapped.isEmpty then line.take (Pager.getWrapWidth line width)
              else TrimSpaceLeft (line.take (Pager.getWrapWidth line width))).length
              ≤ (line.take (Pager.getWrapWidth line width)).length := by
            split
            · exact Nat.le_refl _
            · exact TrimSpaceLeft_length_le _
          have h3 := List.length_take_le (Pager.getWrapWidth line width) line
          have h4 := Pager.getWrapWidth_le line width
          omega
    · rw [pager_wrapLoop_step_ge width line wrapped hlt] at hsub
      rcases mem_trailer_cases hsub with h | h
      · exact hacc sub h
      · subst h
        have h1 := TrimSpaceRight_length_le (if wrapped.isEmpty then line else TrimSpaceLeft line)
        have h2 : (if wrapped.isEmpty then line else TrimSpaceLeft line).length ≤ line.length := by
          split
          · exact Nat.le_refl _
          · exact TrimSpaceLeft_length_le line
        omega

/-- C7: for every positive width and every input line, every sub-line
produced by the pager's wrapLine has length at most the width. -/
theorem wrap_bounded (width : Nat) (hw : 0 < width) (line : List Cell) :
    ∀ sub ∈ Pager.wrapLine width line, sub.length ≤ width := by
  unfold Pager.wrapLine
  by_cases he : line.isEmpty
  · rw [if_pos he]
    intro sub hsub
    rw [List.mem_singleton] at hsub
    subst hsub
    exact Nat.zero_le width
  · rw [if_neg he]
    exact wrapLoop_bounded width hw (TrimSpaceRight line).length _ []
      (Nat.le_refl _) (fun s hs => absurd hs (List.not_mem_nil s))

/-- C7, witness: all sub-lines of wrapping "ab cd" at width 4 are within the
width. -/
theorem wrap_bounded_witness :
    (Pager.wrapLine 4 [mkCell 'a', mkCell 'b', mkCell ' ', mkCell 'c', mkCell 'd']).all
      (fun s => decide (s.length ≤ 4)) = true := by
  have h := wrap_bounded 4 (by decide) [mkCell 'a', mkCell 'b', mkCell ' ', mkCell 'c', mkCell 'd']
  rw [List.all_eq_true]
  intro s hs
  simpa using h s hs

/-- C10, counterexample: on the line "ab cd" at width 4 the pager's wrapLine
breaks at the space ([["ab"], ["cd"]]) while part_000's hard-breaks at the
width ([["ab c"], ["d"]]); the two implementations are not extensionally
equal. -/
theorem wrapline_impls_cex :
    Pager.wrapLine 4 [mkCell 'a', mkCell 'b', mkCell ' ', mkCell 'c', mkCell 'd']
      ≠ Part000.wrapLine 4 [mkCell 'a', mkCell 'b', mkCell ' ', mkCell 'c', mkCell 'd'] := by
  unfold Pager.wrapLine Part000.wrapLine
  rw [if_neg (by decide), if_neg (by decide),
    show TrimSpaceRight [mkCell 'a', mkCell 'b', mkCell ' ', mkCell 'c', mkCell 'd']
      = [mkCell 'a', mkCell 'b', mkCell ' ', mkCell 'c', mkCell 'd'] from by decide,
    pager_wrapLoop_step_lt, pager_wrapLoop_step_ge,
    part000_wrapLoop_step_lt, part000_wrapLoop_step_ge]
  all_goals decide

theorem wrapLoops_eq_nospace (width : Nat) (hw : 0 < width) :
    ∀ (n : Nat) (line : List Cell) (wrapped : List (List Cell)),
      line.length ≤ n →
      (∀ c ∈ line, cellIsSpace c = false) →
      Pager.wrapLoop width line wrapped = Part000.wrapLoop width line wrapped := by
  intro n
  induction n with
  | zero =>
    intro line wrapped hlen hns
    rw [pager_wrapLoop_step_ge width line wrapped (by omega),
      part000_wrapLoop_step_ge width line wrapped (by omega)]
  | succ n ih =>
    intro line wrapped hlen hns
    by_cases hlt : width < line.length
    · have hgw : Pager.getWrapWidth line width = width :=
        Pager.getWrapWidth_nospace line width hns
      have hgw0 : Part000.getWrapWidth line width = width := rfl
      rw [pager_wrapLoop_step_lt width line wrapped hlt (by omega),
        part000_wrapLoop_step_lt width line wrapped hlt (by rw [hgw0]; omega),
        hgw, hgw0]
      refine ih (TrimSpaceLeft (line.drop width)) _ ?_ ?_
      · have h1 := TrimSpaceLeft_length_le (line.drop width)
        rw [List.length_drop] at h1
        omega
      · intro c hc
        exact hns c (List.drop_subset width line ((List.dropWhile_suffix _).sublist.subset hc))
    · rw [pager_wrapLoop_step_ge width line wrapped hlt,
        part000_wrapLoop_step_ge width line wrapped hlt]

/-- C10, amended: the two wrapLine implementations agree on every line that
contains no whitespace cell (then the pager's backward scan never finds a
break point and hard-breaks at the width exactly like part_000's); on lines
with whitespace they differ. -/
theorem wrapline_impls_equal (width : Nat) (hw : 0 < width) (line : List Cell)
    (hns : ∀ c ∈ line, cellIsSpace c = false) :
    Pager.wrapLine width line = Part000.wrapLine width line := by
  unfold Pager.wrapLine Part000.wrapLine
  by_cases he : line.isEmpty
  · rw [if_pos he, if_pos he]
  · rw [if_neg he, if_neg he, TrimSpaceRight_nospace line hns]
    exact wrapLoops_eq_nospace width hw line.length line [] (Nat.le_refl _) hns

/-- C10, witness for the amended theorem: a three-cell line with no spaces at
width 2. -/
theorem wrapline_impls_equal_witness :
    Pager.wrapLine 2 [mkCell 'a', mkCell 'b', mkCell 'c']
      = Part000.wrapLine 2 [mkCell 'a', mkCell 'b', mkCell 'c'] :=
  wrapline_impls_equal 2 (by decide) [mkCell 'a', mkCell 'b', mkCell 'c'] (by decide)

end Moar
